import Mathlib

/-!
Verification of the task-tui terminal task manager (src/main.rs).

The Rust source is shallowly embedded: pure logic becomes Lean functions,
timestamps become abstract Nat values threaded as an explicit now argument,
fallible operations return Except or Option (Option.none standing for a
Rust panic), usize arithmetic wraps at 2 to the 64, and the external JSON
library (serde_json) is abstracted as a parse function parameter whose
relevant behaviour (empty input reports end-of-file) is a hypothesis.
-/

namespace TaskTui

/-- The four lifecycle states of a task, from the TaskState enum. -/
inductive TaskState where
  | Pending
  | Started
  | InProgress
  | Done
deriving DecidableEq, Repr

/-- TaskState::new returns Pending. -/
def TaskState.new : TaskState := TaskState.Pending

/-- TaskState::to_string, the textual encoding used for display. -/
def TaskState.to_string : TaskState → String
  | TaskState.Pending => "pending"
  | TaskState.Started => "started"
  | TaskState.InProgress => "in progress"
  | TaskState.Done => "done"

/-- TaskState::progress, the one step-forward operation of the lifecycle. -/
def TaskState.progress : TaskState → TaskState
  | TaskState.Pending => TaskState.Started
  | TaskState.Started => TaskState.InProgress
  | TaskState.InProgress => TaskState.Done
  | TaskState.Done => TaskState.Done

/-- Position of a state in the forward order, used to express monotonicity. -/
def TaskState.rank : TaskState → Nat
  | TaskState.Pending => 0
  | TaskState.Started => 1
  | TaskState.InProgress => 2
  | TaskState.Done => 3

/-- The error enum of the program. ReadDBError wraps an io error,
ParseDBError wraps a serde_json error, StringError carries a message
(the InvalidStateError of the design). -/
inductive Error where
  | ReadDBError (msg : String)
  | ParseDBError (msg : String)
  | StringError (msg : String)
deriving DecidableEq, Repr

/-- The TryFrom str implementation for TaskState: the four recognized
tokens decode, anything else is a StringError. -/
def TaskState.try_from (value : String) : Except Error TaskState :=
  if value = "pending" then Except.ok TaskState.Pending
  else if value = "started" then Except.ok TaskState.Started
  else if value = "in progress" then Except.ok TaskState.InProgress
  else if value = "done" then Except.ok TaskState.Done
  else Except.error (Error.StringError "input was not a valid TaskState")

/-- The Task struct. Timestamps are abstract Nat instants. -/
structure Task where
  id : Nat
  name : String
  state : TaskState
  created_at : Nat
  started_at : Option Nat
  finished_at : Option Nat
deriving DecidableEq, Repr

/-- Task::create_task: fresh task with the given id and name, Pending,
created now, with both optional timestamps absent. -/
def Task.create_task (number : Nat) (task_name : String) (now : Nat) : Task :=
  { id := number
    name := task_name
    state := TaskState.new
    created_at := now
    started_at := none
    finished_at := none }

/-- Task::progress: advance the state, then stamp a timestamp by matching
on the new state (Started stamps started_at, Done stamps finished_at). -/
def Task.progress (now : Nat) (t : Task) : Task :=
  let st := t.state.progress
  let t2 := { t with state := st }
  match st with
  | TaskState.Started => { t2 with started_at := some now }
  | TaskState.Done => { t2 with finished_at := some now }
  | _ => t2

/-- Outcome of handing a string to the external JSON library: a task list,
an end-of-file error, or any other decode error. -/
inductive ParseResult where
  | ok (tasks : List Task)
  | eofError (msg : String)
  | otherError (msg : String)

/-- collect_tasks: the literal string null decodes to the empty list; an
end-of-file decode error also yields the empty list; any other decode
error is surfaced as a ParseDBError. -/
def collect_tasks (parse : String → ParseResult) (s : String) :
    Except Error (List Task) :=
  if s = "null" then Except.ok []
  else
    match parse s with
    | ParseResult.ok tasks => Except.ok tasks
    | ParseResult.eofError _ => Except.ok []
    | ParseResult.otherError m => Except.error (Error.ParseDBError m)

/-- The backing file as seen before an operation: absent, present with
some contents, or present but unreadable (io failure on open or read). -/
inductive FileState where
  | absent
  | present (contents : String)
  | unreadable
deriving DecidableEq

/-- ensure_db_file_exists: an absent file (or directory) is created,
yielding empty contents; an unreadable file is an io ReadDBError. -/
def ensure_db_file_exists : FileState → Except Error String
  | FileState.absent => Except.ok ""
  | FileState.present s => Except.ok s
  | FileState.unreadable => Except.error (Error.ReadDBError "io error")

/-- read_db: provision the file, then decode its contents. -/
def read_db (parse : String → ParseResult) (fs : FileState) :
    Except Error (List Task) :=
  match ensure_db_file_exists fs with
  | Except.error e => Except.error e
  | Except.ok s => collect_tasks parse s

/-- The store normalization applied by write_db: stable sort by ascending
id (Rust sort_by with cmp on id). -/
def sortById (tasks : List Task) : List Task :=
  tasks.mergeSort (fun a b => a.id ≤ b.id)

/-- write_db: truncate the file to length zero, sort the tasks by id,
serialize the sorted list as the entire new contents, and return the
sorted list. The old contents are discarded whatever they were. -/
def write_db (serialize : List Task → String) (tasks : List Task)
    (oldContents : String) : String × List Task :=
  let sorted := sortById tasks
  (serialize sorted, sorted)

/-- Largest id present in a list of tasks, 0 for the empty list. -/
def maxId (l : List Task) : Nat :=
  l.foldr (fun t m => max t.id m) 0

/-- The modulus of usize arithmetic on a 64-bit target. -/
def USIZE : Nat := 2 ^ 64

/-- Wrapping usize addition, the release-build semantics of a + b on
usize (a debug build panics on overflow instead). -/
def usizeAdd (a b : Nat) : Nat := (a + b) % USIZE

/-- Wrapping usize subtraction, the release-build semantics of the
expression a - b on usize (a debug build panics on underflow instead). -/
def usizeSub (a b : Nat) : Nat := (a + USIZE - b) % USIZE

/-- add_task_to_db, after the read: if the list is non-empty the new id is
one more than the id of the last element (map_or 1 over last, plus one on
usize, which wraps), else the new id is 1; the new task is appended and
the list written back (hence sorted by write_db). -/
def add_task_to_db (now : Nat) (name : String) (parsed : List Task) :
    List Task :=
  let new_task :=
    if parsed.length ≠ 0 then
      Task.create_task (usizeAdd (match parsed.getLast? with
        | none => 1
        | some a => a.id) 1) name now
    else
      Task.create_task 1 name now
  sortById (parsed ++ [new_task])

/-- progress_task_at_index, after the read: with no selection nothing
happens; with a selection and a non-empty list the selected element is
advanced in place and the list written back; indexing out of bounds is a
Rust panic, modelled as none. -/
def progress_task_at_index (now : Nat) (sel : Option Nat)
    (db : List Task) : Option (Option Nat × List Task) :=
  match sel with
  | none => some (none, db)
  | some selected =>
    if db.length > 0 then
      if h : selected < db.length then
        some (some selected,
          sortById (db.set selected (Task.progress now (db.get ⟨selected, h⟩))))
      else none
    else some (some selected, db)

/-- remove_task_at_index, after the read: with no selection nothing
happens; with a selection and a non-empty list the element at the selected
index is removed (a panic, modelled as none, if out of bounds), the list
written back, and the selection moved one earlier unless it was 0, in
which case it is left untouched. -/
def remove_task_at_index (sel : Option Nat) (db : List Task) :
    Option (Option Nat × List Task) :=
  match sel with
  | none => some (none, db)
  | some selected =>
    if db.length > 0 then
      if selected < db.length then
        some (if selected ≠ 0 then some (selected - 1) else some selected,
          sortById (db.eraseIdx selected))
      else none
    else some (some selected, db)

/-- The KeyCode Down handler: selected at or past amount_task - 1 wraps to
0, otherwise the selection moves one later. The subtraction is the
wrapping usize subtraction of the source. -/
def navigateDown (amount_task selected : Nat) : Nat :=
  if selected ≥ usizeSub amount_task 1 then 0 else selected + 1

/-- The KeyCode Up handler: a positive selection moves one earlier,
otherwise it wraps to amount_task - 1 (wrapping usize subtraction). -/
def navigateUp (amount_task selected : Nat) : Nat :=
  if selected > 0 then selected - 1 else usizeSub amount_task 1

/-- The two tabs of the interface (MenuItem enum). -/
inductive MenuItem where
  | Home
  | Tasks
deriving DecidableEq, Repr

/-- The two input modes of the App state. -/
inductive InputMode where
  | Normal
  | Editing
deriving DecidableEq, Repr

/-- The key codes the main loop inspects. -/
inductive Key where
  | ch (c : Char)
  | down
  | up
  | enter
  | backspace
  | esc
deriving DecidableEq, Repr

/-- An event received from the event channel. -/
inductive Ev where
  | input (k : Key)
  | tick
deriving DecidableEq, Repr

/-- How an iteration of the main loop can end the process: the graceful
quit on the key e, propagation of an Error through the question-mark
operator (which returns from main), or a panic from an expect or an
out-of-bounds index. -/
inductive ExitKind where
  | quitOk
  | errorProp
  | panicked
deriving DecidableEq, Repr

/-- The state the main loop carries: the raw-mode flag of the terminal,
the App input state, the active tab, the ListState selection, and the
store. The store is the task list currently on disk, or an error when the
file has become unreadable (every read_db then fails). -/
structure AppState where
  rawMode : Bool
  inputMode : InputMode
  input : String
  menu : MenuItem
  selected : Option Nat
  store : Except String (List Task)

/-- One key handled in Normal input mode, mirroring the match in main:
e disables raw mode and breaks the loop; h and t switch tabs; a enters
editing mode; p and d run the task mutation helpers (an error from the
store propagates out of main via the question mark, leaving raw mode
untouched); Down and Up read the store with expect (a store error panics)
and move the selection with the wrapping arithmetic of the source. -/
def stepNormal (s : AppState) (k : Key) : AppState ⊕ (ExitKind × AppState) :=
  match k with
  | Key.ch c =>
    if c = 'e' then Sum.inr (ExitKind.quitOk, { s with rawMode := false })
    else if c = 'h' then Sum.inl { s with menu := MenuItem.Home }
    else if c = 't' then Sum.inl { s with menu := MenuItem.Tasks }
    else if c = 'a' then Sum.inl { s with inputMode := InputMode.Editing }
    else if c = 'p' then
      match s.store with
      | Except.error _ =>
        match s.selected with
        | none => Sum.inl s
        | some _ => Sum.inr (ExitKind.errorProp, s)
      | Except.ok parsed =>
        match progress_task_at_index 0 s.selected parsed with
        | none => Sum.inr (ExitKind.panicked, s)
        | some (_, newList) => Sum.inl { s with store := Except.ok newList }
    else if c = 'd' then
      match s.store with
      | Except.error _ =>
        match s.selected with
        | none => Sum.inl s
        | some _ => Sum.inr (ExitKind.errorProp, s)
      | Except.ok parsed =>
        match remove_task_at_index s.selected parsed with
        | none => Sum.inr (ExitKind.panicked, s)
        | some (sel2, newList) =>
          Sum.inl { s with selected := sel2, store := Except.ok newList }
    else Sum.inl s
  | Key.down =>
    match s.selected with
    | none => Sum.inl s
    | some selected =>
      match s.store with
      | Except.error _ => Sum.inr (ExitKind.panicked, s)
      | Except.ok l =>
        Sum.inl { s with selected := some (navigateDown l.length selected) }
  | Key.up =>
    match s.selected with
    | none => Sum.inl s
    | some selected =>
      match s.store with
      | Except.error _ => Sum.inr (ExitKind.panicked, s)
      | Except.ok l =>
        Sum.inl { s with selected := some (navigateUp l.length selected) }
  | _ => Sum.inl s

/-- One key handled in Editing input mode: Enter drains the input buffer
into add_task_to_db (a store read error propagates out of main) and
returns to Normal mode; characters extend the buffer; Backspace pops;
Esc returns to Normal mode. -/
def stepEditing (s : AppState) (k : Key) : AppState ⊕ (ExitKind × AppState) :=
  match k with
  | Key.enter =>
    match s.store with
    | Except.error _ => Sum.inr (ExitKind.errorProp, s)
    | Except.ok parsed =>
      Sum.inl { s with
        store := Except.ok (add_task_to_db 0 s.input parsed)
        input := ""
        inputMode := InputMode.Normal }
  | Key.ch c => Sum.inl { s with input := s.input.push c }
  | Key.backspace => Sum.inl { s with input := s.input.dropRight 1 }
  | Key.esc => Sum.inl { s with inputMode := InputMode.Normal }
  | _ => Sum.inl s

/-- One received event: a tick does nothing, an input key is dispatched
on the current input mode. -/
def step (s : AppState) : Ev → AppState ⊕ (ExitKind × AppState)
  | Ev.tick => Sum.inl s
  | Ev.input k =>
    match s.inputMode with
    | InputMode.Normal => stepNormal s k
    | InputMode.Editing => stepEditing s k

/-- The draw at the top of each loop iteration: rendering the Tasks tab
calls read_db with expect, so a store error panics there; every other
combination renders without touching the store. -/
def draw (s : AppState) : Option (ExitKind × AppState) :=
  match s.menu, s.store with
  | MenuItem.Tasks, Except.error _ => some (ExitKind.panicked, s)
  | _, _ => none

/-- The main loop: draw, then receive the next event; an exhausted event
list is the channel closing, which the question mark on recv propagates
out of main. The loop ends with an ExitKind and the state at exit. -/
def runMain (evs : List Ev) (s : AppState) : ExitKind × AppState :=
  match draw s with
  | some r => r
  | none =>
    match evs with
    | [] => (ExitKind.errorProp, s)
    | e :: rest =>
      match step s e with
      | Sum.inl s2 => runMain rest s2
      | Sum.inr r => r

/-- The state right after startup: raw mode enabled, Normal input mode,
empty input buffer, Home tab, selection at Some 0, and whatever the store
holds (here: the provisioned empty store). -/
def initApp : AppState :=
  { rawMode := true
    inputMode := InputMode.Normal
    input := ""
    menu := MenuItem.Home
    selected := some 0
    store := Except.ok [] }

/-! ### Helper lemmas about the store normalization -/

/-- A list pairwise sorted by ascending id is unchanged by sortById. -/
lemma sortById_sorted_eq (l : List Task)
    (h : List.Pairwise (fun a b => a.id ≤ b.id) l) : sortById l = l :=
  List.mergeSort_of_sorted (h.imp fun hab => decide_eq_true hab)

/-- Strict pairwise ordering by id weakens to the non-strict ordering. -/
lemma pairwise_id_lt_le {l : List Task}
    (h : List.Pairwise (fun a b => a.id < b.id) l) :
    List.Pairwise (fun a b => a.id ≤ b.id) l :=
  h.imp fun hab => Nat.le_of_lt hab

/-! ### Sample tasks used as concrete inputs -/

/-- A task parked at Done with an already-set finished_at. -/
def doneTask : Task :=
  { id := 1, name := "x", state := TaskState.Done, created_at := 0,
    started_at := some 2, finished_at := some 5 }

/-- A task at InProgress with finished_at still absent. -/
def inProgressTask : Task :=
  { id := 1, name := "x", state := TaskState.InProgress, created_at := 0,
    started_at := some 2, finished_at := none }

/-- A freshly created pending task with id 1. -/
def pendingTask : Task :=
  { id := 1, name := "wash dishes", state := TaskState.Pending,
    created_at := 0, started_at := none, finished_at := none }

/-- A second pending task with id 2. -/
def pendingTask2 : Task :=
  { id := 2, name := "dry dishes", state := TaskState.Pending,
    created_at := 0, started_at := none, finished_at := none }

/-! ### C1 -/

/-- Claim C1 (code bug): advancing a task that is already Done keeps the
state at Done but overwrites finished_at with the current time, so
advance is not a no-op at Done, and advancing twice from InProgress does
not keep the finished_at of the first advance. -/
theorem advance_at_done_restamps_finished_at :
    (Task.progress 7 doneTask).state = TaskState.Done ∧
    (Task.progress 7 doneTask).finished_at = some 7 ∧
    (Task.progress 7 doneTask).finished_at ≠ doneTask.finished_at ∧
    (Task.progress 7 (Task.progress 5 inProgressTask)).state =
      (Task.progress 5 inProgressTask).state ∧
    (Task.progress 7 (Task.progress 5 inProgressTask)).finished_at ≠
      (Task.progress 5 inProgressTask).finished_at := by
  decide

/-! ### C3 -/

/-- Claim C3 (code bug): with an empty task list and the selection at 0,
the Down handler computes 0 - 1 on usize, which wraps, so the comparison
fails and the selection is set to 1; the Up handler sets it to 2 to the
64 minus 1. Neither navigation is a no-op on the empty list (and a debug
build panics on the underflow instead). -/
theorem navigate_empty_list_misbehaves :
    navigateDown 0 0 = 1 ∧ navigateUp 0 0 = USIZE - 1 ∧
    navigateDown 0 0 ≠ 0 ∧ navigateUp 0 0 ≠ 0 := by
  refine ⟨rfl, rfl, ?_, ?_⟩ <;> decide

/-! ### C9 -/

/-- The state reached from Pending after n advances. -/
def stateAt (n : Nat) : TaskState :=
  TaskState.progress^[n] TaskState.Pending

/-- After three or more advances the state is Done. -/
lemma stateAt_three_add (k : Nat) : stateAt (k + 3) = TaskState.Done := by
  induction k with
  | zero => rfl
  | succ k ih =>
    have hstep : stateAt (k + 1 + 3) = TaskState.progress (stateAt (k + 3)) :=
      Function.iterate_succ_apply' TaskState.progress (k + 3) TaskState.Pending
    rw [hstep, ih]
    rfl

/-- Claim C9 (confirmed): from Pending the visited states are exactly
Pending, Started, InProgress, Done, Done, and so on; every advance moves
the rank forward by exactly one step capped at Done, and never backward. -/
theorem advance_monotonic :
    (∀ n : Nat, stateAt n =
      if n = 0 then TaskState.Pending
      else if n = 1 then TaskState.Started
      else if n = 2 then TaskState.InProgress
      else TaskState.Done) ∧
    (∀ s : TaskState, (TaskState.progress s).rank = min (s.rank + 1) 3) ∧
    (∀ s : TaskState, s.rank ≤ (TaskState.progress s).rank) := by
  refine ⟨?_, ?_, ?_⟩
  · intro n
    match n with
    | 0 => rfl
    | 1 => rfl
    | 2 => rfl
    | (k + 3) =>
      rw [if_neg (by omega), if_neg (by omega), if_neg (by omega)]
      exact stateAt_three_add k
  · intro s; cases s <;> rfl
  · intro s; cases s <;> decide

/-! ### C10 -/

/-- Claim C10 (confirmed): the textual encoding of the four lifecycle
states round-trips through the decoder. -/
theorem state_text_round_trip :
    ∀ st : TaskState,
      TaskState.try_from (TaskState.to_string st) = Except.ok st := by
  intro st
  cases st <;> rfl

/-! ### C2 -/

/-- Claim C2 counterexample: deleting the only task (index 0 of a
singleton list) empties the list, yet the selection stays defined at
some 0 instead of becoming absent as the claim requires. -/
theorem delete_last_task_keeps_selection :
    remove_task_at_index (some 0) [pendingTask] = some (some 0, []) ∧
    (some 0 : Option Nat) ≠ none := by
  refine ⟨?_, by decide⟩
  simp [remove_task_at_index, sortById]

/-- Claim C2 amended: for an id-sorted list and an in-bounds selection i,
Delete removes exactly the task at index i and persists the shortened
list; afterwards the selection is some (i - 1) when i is not 0 and stays
at some 0 when i is 0, even when the list has become empty (the code
never clears the selection). -/
theorem delete_removes_selected :
    ∀ (db : List Task) (i : Nat),
      List.Pairwise (fun a b => a.id < b.id) db → i < db.length →
      remove_task_at_index (some i) db =
        some ((if i = 0 then some 0 else some (i - 1)), db.eraseIdx i) := by
  intro db i hs hi
  have hlen : 0 < db.length := Nat.lt_of_le_of_lt (Nat.zero_le i) hi
  have hsorted : List.Pairwise (fun a b => a.id ≤ b.id) (db.eraseIdx i) :=
    (pairwise_id_lt_le hs).sublist (db.eraseIdx_sublist i)
  have hst : sortById (db.eraseIdx i) = db.eraseIdx i :=
    sortById_sorted_eq _ hsorted
  by_cases h0 : i = 0
  · subst h0
    simp [remove_task_at_index, hlen, hi]
    simpa using hst
  · simp [remove_task_at_index, hlen, hi, hst, h0]

/-- Witness for the amended C2 at the two-task scenario of the design:
deleting index 0 of the list with ids 1 and 2 keeps the selection at
some 0 and leaves only the task with id 2. -/
theorem delete_removes_selected_witness :
    remove_task_at_index (some 0) [pendingTask, pendingTask2] =
      some (some 0, [pendingTask2]) := by
  have h := delete_removes_selected [pendingTask, pendingTask2] 0
    (by decide) (by decide)
  simpa using h

/-! ### C6 -/

/-- Every id in a list is bounded by maxId of that list. -/
lemma id_le_maxId : ∀ {l : List Task} {t : Task}, t ∈ l → t.id ≤ maxId l := by
  intro l
  induction l with
  | nil => intro t h; cases h
  | cons a rest ih =>
    intro t h
    rcases List.mem_cons.mp h with h1 | h2
    · subst h1; exact Nat.le_max_left _ _
    · exact Nat.le_trans (ih h2) (Nat.le_max_right _ _)

/-- In a non-empty list strictly sorted by id, the last element carries
the maximum id. -/
lemma getLast_id_eq_maxId :
    ∀ {l : List Task}, List.Pairwise (fun a b => a.id < b.id) l →
      ∀ (hne : l ≠ []), (l.getLast hne).id = maxId l := by
  intro l
  induction l with
  | nil => intro _ hne; exact absurd rfl hne
  | cons a rest ih =>
    intro hs hne
    cases rest with
    | nil =>
      show a.id = max a.id 0
      exact (Nat.max_eq_left (Nat.zero_le _)).symm
    | cons b rest2 =>
      have hs' : List.Pairwise (fun x y => x.id < y.id) (b :: rest2) :=
        hs.of_cons
      have hab : a.id < b.id :=
        (List.pairwise_cons.mp hs).1 b (List.mem_cons_self b rest2)
      have hlast : ((a :: b :: rest2).getLast hne).id =
          ((b :: rest2).getLast (by simp)).id := by
        rw [List.getLast_cons (by simp)]
      have hmax : maxId (a :: b :: rest2) = max a.id (maxId (b :: rest2)) := rfl
      have hb : b.id ≤ maxId (b :: rest2) :=
        id_le_maxId (List.mem_cons_self b rest2)
      have ha : a.id ≤ maxId (b :: rest2) :=
        Nat.le_of_lt (Nat.lt_of_lt_of_le hab hb)
      rw [hlast, ih hs' (by simp), hmax]
      exact (Nat.max_eq_right ha).symm

/-- A task whose id is the largest usize value. -/
def bigIdTask : Task :=
  { id := USIZE - 1, name := "big", state := TaskState.Pending,
    created_at := 0, started_at := none, finished_at := none }

/-- Sorting a pair whose first key is strictly larger swaps the pair. -/
lemma sortById_pair_swap (a b : Task) (h : ¬ a.id ≤ b.id) :
    sortById [a, b] = [b, a] := by
  simp [sortById, List.mergeSort, List.splitInTwo, List.splitAt_eq,
    List.merge, h]

/-- Claim C6 counterexample: at the store holding one task with the
largest usize id, Add wraps the new id to 0 (release semantics; a debug
build panics on the overflow) instead of producing maximum plus one, so
the result is the wrapped task sorted in front, not the old list
extended by a task with id maxId + 1. -/
theorem add_at_usize_max_wraps :
    usizeAdd (USIZE - 1) 1 = 0 ∧
    add_task_to_db 7 "x" [bigIdTask] =
      [Task.create_task 0 "x" 7, bigIdTask] ∧
    add_task_to_db 7 "x" [bigIdTask] ≠
      [bigIdTask, Task.create_task (maxId [bigIdTask] + 1) "x" 7] := by
  have h2 : add_task_to_db 7 "x" [bigIdTask] =
      [Task.create_task 0 "x" 7, bigIdTask] := by
    have hswap := sortById_pair_swap bigIdTask (Task.create_task 0 "x" 7)
      (by decide)
    calc add_task_to_db 7 "x" [bigIdTask]
        = sortById [bigIdTask, Task.create_task 0 "x" 7] := by
          norm_num [add_task_to_db, usizeAdd, bigIdTask, USIZE]
      _ = [Task.create_task 0 "x" 7, bigIdTask] := hswap
  refine ⟨by decide, h2, ?_⟩
  rw [h2]
  decide

/-- Claim C6 amended: on an id-sorted store state whose maximum id can
still be incremented without wrapping usize, Add appends a single new
task whose id is one more than the maximum id present (1 on the empty
list), whose state is Pending and whose optional timestamps are absent;
the new id is strictly larger than every existing id, the result is
again strictly sorted by id, and all ids stay distinct. -/
theorem add_appends_max_plus_one :
    ∀ (now : Nat) (name : String) (l : List Task),
      List.Pairwise (fun a b => a.id < b.id) l →
      maxId l + 1 < USIZE →
      add_task_to_db now name l =
        l ++ [Task.create_task (maxId l + 1) name now] ∧
      (Task.create_task (maxId l + 1) name now).state = TaskState.Pending ∧
      (Task.create_task (maxId l + 1) name now).started_at = none ∧
      (Task.create_task (maxId l + 1) name now).finished_at = none ∧
      (∀ t ∈ l, t.id < maxId l + 1) ∧
      List.Pairwise (fun a b => a.id < b.id) (add_task_to_db now name l) ∧
      ((add_task_to_db now name l).map (fun t => t.id)).Nodup := by
  intro now name l hs hb
  have hbound : ∀ t ∈ l, t.id < maxId l + 1 :=
    fun t ht => Nat.lt_succ_of_le (id_le_maxId ht)
  have hpairlt : List.Pairwise (fun a b => a.id < b.id)
      (l ++ [Task.create_task (maxId l + 1) name now]) := by
    rw [List.pairwise_append]
    refine ⟨hs, List.pairwise_singleton _ _, ?_⟩
    intro a ha b hb
    rcases List.mem_singleton.mp hb with rfl
    exact hbound a ha
  have heq : add_task_to_db now name l =
      l ++ [Task.create_task (maxId l + 1) name now] := by
    cases hl : l with
    | nil =>
      show sortById ([] ++ [Task.create_task 1 name now]) = _
      simp [sortById, maxId]
    | cons a rest =>
      have hne : (a :: rest) ≠ [] := by simp
      have hlast : (a :: rest).getLast? = some ((a :: rest).getLast hne) :=
        List.getLast?_eq_getLast _ hne
      have hid : ((a :: rest).getLast hne).id = maxId (a :: rest) :=
        getLast_id_eq_maxId (hl ▸ hs) hne
      have hb2 : maxId (a :: rest) + 1 < USIZE := hl ▸ hb
      have hw : usizeAdd (maxId (a :: rest)) 1 = maxId (a :: rest) + 1 :=
        Nat.mod_eq_of_lt hb2
      rw [add_task_to_db]
      rw [if_pos (by simp)]
      rw [hlast]
      simp only [hid, hw]
      exact sortById_sorted_eq _ (pairwise_id_lt_le (hl ▸ hpairlt))
  refine ⟨heq, rfl, rfl, rfl, hbound, ?_, ?_⟩
  · rw [heq]; exact hpairlt
  · rw [heq]
    have hmap : List.Pairwise (fun x y : Nat => x < y)
        ((l ++ [Task.create_task (maxId l + 1) name now]).map
          (fun t => t.id)) :=
      (List.pairwise_map).mpr hpairlt
    have hne : List.Pairwise (fun x y : Nat => x ≠ y)
        ((l ++ [Task.create_task (maxId l + 1) name now]).map
          (fun t => t.id)) :=
      hmap.imp fun h => Nat.ne_of_lt h
    exact hne

/-- Witness for C6: adding to the empty store creates exactly the task
with id 1, Pending, and no optional timestamps. -/
theorem add_appends_max_plus_one_witness :
    add_task_to_db 0 "wash dishes" [] =
      [Task.create_task 1 "wash dishes" 0] := by
  have h := add_appends_max_plus_one 0 "wash dishes" [] (by decide) (by decide)
  simpa [maxId] using h.1

/-! ### C7 -/

/-- Claim C7 (confirmed): save sorts the task sequence by ascending id,
writes the serialized sorted sequence as the entire new file contents
(whatever the old contents were), and hands the sorted sequence, a
permutation of the input, back to the caller; on input already sorted by
id the returned sequence is the input itself. -/
theorem write_db_normalizes :
    ∀ (serialize : List Task → String) (tasks : List Task)
      (oldContents : String),
      (write_db serialize tasks oldContents).1 =
        serialize (sortById tasks) ∧
      (write_db serialize tasks oldContents).2 = sortById tasks ∧
      List.Pairwise (fun a b => a.id ≤ b.id)
        ((write_db serialize tasks oldContents).2) ∧
      ((write_db serialize tasks oldContents).2).Perm tasks ∧
      (List.Pairwise (fun a b => a.id ≤ b.id) tasks →
        (write_db serialize tasks oldContents).2 = tasks) := by
  intro serialize tasks oldContents
  refine ⟨rfl, rfl, ?_, ?_, ?_⟩
  · have h := @List.sorted_mergeSort Task
      (fun a b : Task => decide (a.id ≤ b.id))
      (fun a b c hab hbc => by
        simp only [decide_eq_true_eq] at *
        exact Nat.le_trans hab hbc)
      (fun a b => by
        rcases Nat.le_total a.id b.id with h | h <;> simp [h])
      tasks
    exact h.imp fun hab => of_decide_eq_true hab
  · exact List.mergeSort_perm tasks _
  · intro hsorted
    exact sortById_sorted_eq tasks hsorted

/-- Witness for C7: saving the already-sorted two-task list returns it
unchanged. -/
theorem write_db_normalizes_witness :
    (write_db (fun _ => "") [pendingTask, pendingTask2] "old").2 =
      [pendingTask, pendingTask2] :=
  (write_db_normalizes (fun _ => "") [pendingTask, pendingTask2]
    "old").2.2.2.2 (by decide)

/-! ### C4 -/

/-- Claim C4 (confirmed): given a JSON decoder that reports end-of-file
on empty input (the behaviour of serde_json), load yields the empty task
list for an absent backing file, for an empty backing file, and for a
backing file holding the literal null document; and whenever load does
fail, either the file was unreadable (an io ReadDBError) or its contents
failed to decode with a non-end-of-file error (a ParseDBError). -/
theorem load_empty_or_absent_ok :
    ∀ (parse : String → ParseResult) (m0 : String),
      parse "" = ParseResult.eofError m0 →
      read_db parse FileState.absent = Except.ok [] ∧
      read_db parse (FileState.present "") = Except.ok [] ∧
      read_db parse (FileState.present "null") = Except.ok [] ∧
      (∀ (fs : FileState) (e : Error),
        read_db parse fs = Except.error e →
        (fs = FileState.unreadable ∧ e = Error.ReadDBError "io error") ∨
        (∃ s m, fs = FileState.present s ∧
          parse s = ParseResult.otherError m ∧
          e = Error.ParseDBError m)) := by
  intro parse m0 hempty
  refine ⟨?_, ?_, ?_, ?_⟩
  · simp [read_db, ensure_db_file_exists, collect_tasks, hempty]
  · simp [read_db, ensure_db_file_exists, collect_tasks, hempty]
  · simp [read_db, ensure_db_file_exists, collect_tasks]
  · intro fs e he
    cases fs with
    | absent =>
      simp [read_db, ensure_db_file_exists, collect_tasks, hempty] at he
    | present s =>
      right
      refine ⟨s, ?_⟩
      simp only [read_db, ensure_db_file_exists, collect_tasks] at he
      by_cases hnull : s = "null"
      · simp [hnull] at he
      · rw [if_neg hnull] at he
        cases hp : parse s with
        | ok tasks => rw [hp] at he; cases he
        | eofError m => rw [hp] at he; cases he
        | otherError m =>
          rw [hp] at he
          exact ⟨m, rfl, rfl, (Except.error.inj he).symm⟩
    | unreadable =>
      left
      simp only [read_db, ensure_db_file_exists] at he
      exact ⟨rfl, (Except.error.inj he).symm⟩

/-- A concrete stand-in for the JSON decoder: end-of-file on empty input,
any other input fails to decode. -/
def parseStub (s : String) : ParseResult :=
  if s = "" then ParseResult.eofError "eof" else ParseResult.otherError "bad"

/-- Witness for C4 at the concrete decoder parseStub: absent, empty and
null files all load as the empty task list. -/
theorem load_empty_or_absent_ok_witness :
    read_db parseStub FileState.absent = Except.ok [] ∧
    read_db parseStub (FileState.present "") = Except.ok [] ∧
    read_db parseStub (FileState.present "null") = Except.ok [] :=
  ⟨(load_empty_or_absent_ok parseStub "eof" rfl).1,
   (load_empty_or_absent_ok parseStub "eof" rfl).2.1,
   (load_empty_or_absent_ok parseStub "eof" rfl).2.2.1⟩

/-! ### C5 -/

/-- Claim C5 (confirmed): any string other than the four lifecycle tokens
decodes to the invalid-state StringError, in particular never to Pending
or any other state; and a store document that the JSON decoder rejects
with a non-end-of-file error (as serde does for an unrecognized state
token) makes load fail instead of succeeding. -/
theorem invalid_state_token_fails :
    ∀ (s : String),
      s ≠ "pending" → s ≠ "started" → s ≠ "in progress" → s ≠ "done" →
      TaskState.try_from s =
        Except.error (Error.StringError "input was not a valid TaskState") ∧
      (∀ st : TaskState, TaskState.try_from s ≠ Except.ok st) ∧
      (∀ (parse : String → ParseResult) (contents m : String),
        contents ≠ "null" → parse contents = ParseResult.otherError m →
        read_db parse (FileState.present contents) =
          Except.error (Error.ParseDBError m)) := by
  intro s h1 h2 h3 h4
  have htf : TaskState.try_from s =
      Except.error (Error.StringError "input was not a valid TaskState") := by
    simp [TaskState.try_from, h1, h2, h3, h4]
  refine ⟨htf, ?_, ?_⟩
  · intro st hok
    rw [htf] at hok
    cases hok
  · intro parse contents m hnull hp
    simp [read_db, ensure_db_file_exists, collect_tasks, hnull, hp]

/-- Witness for C5: the token bogus decodes to the invalid-state error,
and a store file parseStub rejects fails to load. -/
theorem invalid_state_token_fails_witness :
    TaskState.try_from "bogus" =
      Except.error (Error.StringError "input was not a valid TaskState") ∧
    read_db parseStub (FileState.present "bogus") =
      Except.error (Error.ParseDBError "bad") :=
  ⟨(invalid_state_token_fails "bogus" (by decide) (by decide) (by decide)
      (by decide)).1,
   (invalid_state_token_fails "bogus" (by decide) (by decide) (by decide)
      (by decide)).2.2 parseStub "bogus" "bad" (by decide) rfl⟩

/-! ### C8 -/

/-- A key handled in Normal mode either continues with raw mode
untouched, exits gracefully with raw mode cleared, or exits by error or
panic with the state (raw mode included) untouched. -/
lemma stepNormal_cases (s : AppState) (k : Key) :
    (∃ s2, stepNormal s k = Sum.inl s2 ∧ s2.rawMode = s.rawMode) ∨
    stepNormal s k = Sum.inr (ExitKind.quitOk, { s with rawMode := false }) ∨
    (∃ ek, stepNormal s k = Sum.inr (ek, s) ∧ ek ≠ ExitKind.quitOk) := by
  cases k with
  | ch c =>
    by_cases h1 : c = 'e'
    · right; left; simp [stepNormal, h1]
    by_cases h2 : c = 'h'
    · left
      exact ⟨{ s with menu := MenuItem.Home },
        by simp [stepNormal, h1, h2], rfl⟩
    by_cases h3 : c = 't'
    · left
      exact ⟨{ s with menu := MenuItem.Tasks },
        by simp [stepNormal, h1, h2, h3], rfl⟩
    by_cases h4 : c = 'a'
    · left
      exact ⟨{ s with inputMode := InputMode.Editing },
        by simp [stepNormal, h1, h2, h3, h4], rfl⟩
    by_cases h5 : c = 'p'
    · cases hst : s.store with
      | error m =>
        cases hsel : s.selected with
        | none =>
          left
          exact ⟨s, by simp [stepNormal, h1, h2, h3, h4, h5, hst, hsel], rfl⟩
        | some i =>
          right; right
          exact ⟨ExitKind.errorProp,
            by simp [stepNormal, h1, h2, h3, h4, h5, hst, hsel], by decide⟩
      | ok parsed =>
        cases hpr : progress_task_at_index 0 s.selected parsed with
        | none =>
          right; right
          exact ⟨ExitKind.panicked,
            by simp [stepNormal, h1, h2, h3, h4, h5, hst, hpr], by decide⟩
        | some pr =>
          obtain ⟨sel2, newList⟩ := pr
          left
          exact ⟨{ s with store := Except.ok newList },
            by simp [stepNormal, h1, h2, h3, h4, h5, hst, hpr], rfl⟩
    by_cases h6 : c = 'd'
    · cases hst : s.store with
      | error m =>
        cases hsel : s.selected with
        | none =>
          left
          exact ⟨s,
            by simp [stepNormal, h1, h2, h3, h4, h5, h6, hst, hsel], rfl⟩
        | some i =>
          right; right
          exact ⟨ExitKind.errorProp,
            by simp [stepNormal, h1, h2, h3, h4, h5, h6, hst, hsel], by decide⟩
      | ok parsed =>
        cases hpr : remove_task_at_index s.selected parsed with
        | none =>
          right; right
          exact ⟨ExitKind.panicked,
            by simp [stepNormal, h1, h2, h3, h4, h5, h6, hst, hpr], by decide⟩
        | some pr =>
          obtain ⟨sel2, newList⟩ := pr
          left
          exact ⟨{ s with selected := sel2, store := Except.ok newList },
            by simp [stepNormal, h1, h2, h3, h4, h5, h6, hst, hpr], rfl⟩
    · left; exact ⟨s, by simp [stepNormal, h1, h2, h3, h4, h5, h6], rfl⟩
  | down =>
    cases hsel : s.selected with
    | none => left; exact ⟨s, by simp [stepNormal, hsel], rfl⟩
    | some i =>
      cases hst : s.store with
      | error m =>
        right; right
        exact ⟨ExitKind.panicked, by simp [stepNormal, hsel, hst], by decide⟩
      | ok l =>
        left
        exact ⟨{ s with selected := some (navigateDown l.length i) },
          by simp [stepNormal, hsel, hst], rfl⟩
  | up =>
    cases hsel : s.selected with
    | none => left; exact ⟨s, by simp [stepNormal, hsel], rfl⟩
    | some i =>
      cases hst : s.store with
      | error m =>
        right; right
        exact ⟨ExitKind.panicked, by simp [stepNormal, hsel, hst], by decide⟩
      | ok l =>
        left
        exact ⟨{ s with selected := some (navigateUp l.length i) },
          by simp [stepNormal, hsel, hst], rfl⟩
  | enter => left; exact ⟨s, rfl, rfl⟩
  | backspace => left; exact ⟨s, rfl, rfl⟩
  | esc => left; exact ⟨s, rfl, rfl⟩

/-- A key handled in Editing mode either continues with raw mode
untouched, or exits by error propagation with the state untouched. -/
lemma stepEditing_cases (s : AppState) (k : Key) :
    (∃ s2, stepEditing s k = Sum.inl s2 ∧ s2.rawMode = s.rawMode) ∨
    (∃ ek, stepEditing s k = Sum.inr (ek, s) ∧ ek ≠ ExitKind.quitOk) := by
  cases k with
  | enter =>
    cases hst : s.store with
    | error m =>
      right
      exact ⟨ExitKind.errorProp, by simp [stepEditing, hst], by decide⟩
    | ok parsed =>
      left
      exact ⟨{ s with
          store := Except.ok (add_task_to_db 0 s.input parsed)
          input := ""
          inputMode := InputMode.Normal },
        by simp [stepEditing, hst], rfl⟩
  | ch c => left; exact ⟨_, rfl, rfl⟩
  | backspace => left; exact ⟨_, rfl, rfl⟩
  | esc => left; exact ⟨_, rfl, rfl⟩
  | down => left; exact ⟨s, rfl, rfl⟩
  | up => left; exact ⟨s, rfl, rfl⟩

/-- Any handled event either continues with raw mode untouched, exits
gracefully with raw mode cleared, or exits by error or panic with the
state untouched. -/
lemma step_cases (s : AppState) (e : Ev) :
    (∃ s2, step s e = Sum.inl s2 ∧ s2.rawMode = s.rawMode) ∨
    step s e = Sum.inr (ExitKind.quitOk, { s with rawMode := false }) ∨
    (∃ ek, step s e = Sum.inr (ek, s) ∧ ek ≠ ExitKind.quitOk) := by
  cases e with
  | tick => left; exact ⟨s, rfl, rfl⟩
  | input k =>
    obtain ⟨raw, im, inp, mn, sel, st⟩ := s
    cases im with
    | Normal =>
      exact stepNormal_cases
        { rawMode := raw, inputMode := InputMode.Normal, input := inp,
          menu := mn, selected := sel, store := st } k
    | Editing =>
      rcases stepEditing_cases
        { rawMode := raw, inputMode := InputMode.Editing, input := inp,
          menu := mn, selected := sel, store := st } k with h | h
      · left; exact h
      · right; right; exact h

/-- The draw at the top of an iteration can only end the process by the
panic of the Tasks renderer, which leaves the state untouched. -/
lemma draw_some {s : AppState} {r : ExitKind × AppState}
    (h : draw s = some r) : r = (ExitKind.panicked, s) := by
  unfold draw at h
  split at h
  · exact (Option.some.inj h).symm
  · exact Option.noConfusion h

/-- Claim C8 counterexample: when the event channel closes (modelled by
the exhausted event list) the loop propagates the recv error out of main
with raw mode still enabled, so this exit path terminates the process
without clearing the raw-mode flag. -/
theorem channel_closed_exits_with_raw_mode_set :
    (runMain [] initApp).1 = ExitKind.errorProp ∧
    (runMain [] initApp).2.rawMode = true :=
  ⟨rfl, rfl⟩

/-- Claim C8 amended: raw mode, set at startup, is cleared exactly on the
graceful quit path (the key e) and on no other: for every event sequence
and every starting state with raw mode enabled, the loop ends with raw
mode cleared precisely when it ends in the graceful quit, while every
error propagation and every panic terminates with raw mode still set. -/
theorem raw_mode_cleared_iff_graceful_quit :
    ∀ (evs : List Ev) (s : AppState), s.rawMode = true →
      ((runMain evs s).2.rawMode = false ↔
        (runMain evs s).1 = ExitKind.quitOk) := by
  intro evs
  induction evs with
  | nil =>
    intro s hs
    cases hd : draw s with
    | some r =>
      have hr := draw_some hd
      subst hr
      rw [runMain, hd]
      simp [hs]
    | none =>
      rw [runMain, hd]
      simp [hs]
  | cons e rest ih =>
    intro s hs
    cases hd : draw s with
    | some r =>
      have hr := draw_some hd
      subst hr
      rw [runMain, hd]
      simp [hs]
    | none =>
      rcases step_cases s e with ⟨s2, hstep, hraw⟩ | hstep | ⟨ek, hstep, hek⟩
      · rw [runMain, hd, hstep]
        exact ih s2 (by rw [hraw, hs])
      · rw [runMain, hd, hstep]
        simp
      · rw [runMain, hd, hstep]
        simp [hs, hek]

/-- Witness for the amended C8: from the startup state, the single
graceful-quit keypress ends the loop with raw mode cleared, matching the
equivalence at a concrete input. -/
theorem raw_mode_cleared_iff_graceful_quit_witness :
    initApp.rawMode = true ∧
    ((runMain [Ev.input (Key.ch 'e')] initApp).2.rawMode = false ↔
      (runMain [Ev.input (Key.ch 'e')] initApp).1 = ExitKind.quitOk) :=
  ⟨rfl, raw_mode_cleared_iff_graceful_quit [Ev.input (Key.ch 'e')] initApp rfl⟩

end TaskTui
